import Mathlib

/-!
Shallow embedding of the hk-mpf-info-scraper core: header reconciliation
(`parse_main_table` in both `mpf_scrape.py` and `mpf_scrape_json.py`), the
multi-locale merge (`combine_all_languages`), and the value-formatting /
translation-map components described by the spec and exercised by the
repository's tests.
-/

namespace MPF

/-- Python `str.strip` whitespace test (space, tab, newline, CR, VT, FF). -/
def isPySpace (c : Char) : Bool :=
  c = ' ' || c = '\t' || c = '\n' || c = '\r' || c = '\x0b' || c = '\x0c'

/-- Strip leading and trailing whitespace from a character list. -/
def pyStripList (cs : List Char) : List Char :=
  ((cs.dropWhile isPySpace).reverse.dropWhile isPySpace).reverse

/-- Python `str.strip()`. -/
def pyStrip (s : String) : String := ⟨pyStripList s.toList⟩

/-- Does `hay` start with `needle`? -/
def segStarts : List Char → List Char → Bool
  | [], _ => true
  | _ :: _, [] => false
  | a :: as, b :: bs => a = b && segStarts as bs

/-- Substring containment on character lists (Python `needle in hay`). -/
def hasSegList (needle : List Char) : List Char → Bool
  | [] => segStarts needle []
  | l@(_ :: t) => segStarts needle l || hasSegList needle t

/-- Python substring test `needle in hay` on strings. -/
def hasSeg (needle hay : String) : Bool := hasSegList needle.toList hay.toList

/-- A decimal numeral exactly as written in the source value: sign, integer
digits (most significant first) and fractional digits. -/
structure DecNum where
  neg : Bool
  intDigits : List Nat
  fracDigits : List Nat
  deriving DecidableEq

/-- A cell value: a string, a numeric value, or pandas NaN (missing). -/
inductive Value where
  | str (s : String)
  | num (d : DecNum)
  | nan
  deriving DecidableEq

/-- One fund record: an ordered association list from column name to value. -/
abbrev Record := List (String × Value)

/-- A raw table as produced by `pandas.read_html`: 3-level column header
triples plus data rows (cells indexed positionally by column). -/
structure RawTable where
  cols : List (String × String × String)
  rows : List (List Value)
  deriving DecidableEq

/-- A reconciled table: canonical column names plus the filtered rows. -/
structure CleanTable where
  names : List String
  rows : List (List Value)
  deriving DecidableEq

/-- The mutable state of the column-classification loop: kept column
indices, their canonical names, and the `seen_return_periods` keys. -/
structure SelState where
  keep : List Nat
  names : List String
  seen : List String
  deriving DecidableEq

/-- `max(tables, key=len)`: first table with the maximal number of rows. -/
def pickMaxRows : List RawTable → RawTable
  | [] => ⟨[], []⟩
  | t :: ts => ts.foldl (fun best x => if x.rows.length > best.rows.length then x else best) t

/-- `df.iloc[:, keep]` applied to one row. -/
def takeCols (keep : List Nat) (row : List Value) : List Value :=
  keep.map (fun i => row.getD i .nan)

/-- `dropna(how='all')` row test: a row is dropped iff every kept cell is NaN. -/
def rowAllNan (cells : List Value) : Bool := cells.all (fun v => v = .nan)

/-- Dictionary access on a record: the value stored under a key. -/
def lookupKey : Record → String → Option Value
  | [], _ => none
  | kv :: t, k => if kv.1 = k then some kv.2 else lookupKey t k

end MPF

namespace MpfScrapeJson

open MPF

/-- The basic-field branch of the `elif` chain in
`mpf_scrape_json.parse_main_table` (lines 138-164): classify a column by its
(stripped) `level_1` text, accepting English / Traditional-Chinese /
Simplified-Chinese variants; first matching rule wins. -/
def basicNameJson (l1 : String) : Option String :=
  if hasSeg "Scheme" l1 || l1 = "計劃" || l1 = "计划" then some "Scheme"
  else if (hasSeg "Constituent" l1 && hasSeg "Fund" l1) || l1 = "成分基金" then
    some "Constituent Fund"
  else if hasSeg "MPF Trustee" l1 || hasSeg "MPFTrustee" l1 || l1 = "受託人" || l1 = "受托人" then
    some "MPF Trustee"
  else if hasSeg "Fund  Type" l1 || hasSeg "Fund Type" l1 || l1 = "基金類別" || l1 = "基金类别" then
    some "Fund Type"
  else if hasSeg "Launch Date" l1 || l1 = "推出日期" then some "Launch Date"
  else if hasSeg "Fund size (HKD\x27 m)" l1 || hasSeg "基金規模" l1 || hasSeg "基金规模" l1 then
    some "Fund size (HKD\x27 m)"
  else if hasSeg "Risk  Class" l1 || hasSeg "Risk Class" l1 || l1 = "風險級別" || l1 = "风险级别" then
    some "Risk Class"
  else if hasSeg "Latest FER" l1 || hasSeg "最近期基金" l1 || hasSeg "開支比率" l1 || hasSeg "开支比率" l1 then
    some "Latest FER (%)"
  else if hasSeg "Details" l1 || l1 = "詳細內容" || l1 = "详细内容" then some "Details"
  else none

/-- `any(year in level_0 for year in ['2024','2023','2022','2021','2020'])`. -/
def hasAnyYear (l0 : String) : Bool :=
  hasSeg "2024" l0 || hasSeg "2023" l0 || hasSeg "2022" l0 || hasSeg "2021" l0 || hasSeg "2020" l0

/-- `re.search(r'(202[0-4])', level_0)`: the leftmost match of the pattern. -/
def findYear : List Char → Option String
  | [] => none
  | c1 :: rest =>
      match rest with
      | c2 :: c3 :: c4 :: _ =>
          if c1 = '2' && c2 = '0' && c3 = '2' && '0' ≤ c4 && c4 ≤ '4' then
            some ⟨[c1, c2, c3, c4]⟩
          else findYear rest
      | _ => none

/-- One iteration of the column loop of `mpf_scrape_json.parse_main_table`
(lines 121-177): skip all-`Unnamed` spacers, keep basic-field columns by
`level_1`, keep the first calendar-year column per distinct year 2020-2024. -/
def stepJson (s : SelState) (idx : Nat) (col : String × String × String) : SelState :=
  let l0 := pyStrip col.1
  let l1 := pyStrip col.2.1
  let l2 := pyStrip col.2.2
  if hasSeg "Unnamed" l0 && hasSeg "Unnamed" l1 && hasSeg "Unnamed" l2 then s
  else
    match basicNameJson l1 with
    | some n => { s with keep := s.keep ++ [idx], names := s.names ++ [n] }
    | none =>
      if hasAnyYear l0 then
        match findYear l0.toList with
        | some y =>
            if ("CY_" ++ y) ∈ s.seen then s
            else ⟨s.keep ++ [idx], s.names ++ ["Calendar Year Return (%)\n-  " ++ y],
                  s.seen ++ ["CY_" ++ y]⟩
        | none => s
      else s

/-- The enumerated column loop. -/
def selJsonAux : Nat → List (String × String × String) → SelState → SelState
  | _, [], s => s
  | idx, c :: cs, s => selJsonAux (idx + 1) cs (stepJson s idx c)

/-- Column classification of `mpf_scrape_json.parse_main_table`. -/
def selectColumnsJson (cols : List (String × String × String)) : SelState :=
  selJsonAux 0 cols ⟨[], [], []⟩

/-- `mpf_scrape_json.parse_main_table` (lines 100-189): pick the table with
the most rows, classify and select columns, drop rows that are entirely
empty across the kept columns.  The only raised error is the `ValueError`
for an empty table list. -/
def parse_main_table (tables : List RawTable) : Except String CleanTable :=
  if tables = [] then .error "No HTML tables were found on the page."
  else
    let df := pickMaxRows tables
    let st := selectColumnsJson df.cols
    let rows := (df.rows.map (takeCols st.keep)).filter (fun r => !(rowAllNan r))
    .ok ⟨st.names, rows⟩

end MpfScrapeJson

namespace MpfScrape

open MPF

/-- The basic-field branch of the `elif` chain in
`mpf_scrape.parse_main_table` (lines 120-146, English labels only). -/
def basicNameEn (l1 : String) : Option String :=
  if hasSeg "Scheme" l1 then some "Scheme"
  else if hasSeg "Constituent" l1 && hasSeg "Fund" l1 then some "Constituent Fund"
  else if hasSeg "MPF Trustee" l1 || hasSeg "MPFTrustee" l1 then some "MPF Trustee"
  else if hasSeg "Fund  Type" l1 || hasSeg "Fund Type" l1 then some "Fund Type"
  else if hasSeg "Launch Date" l1 then some "Launch Date"
  else if hasSeg "Fund size (HKD\x27 m)" l1 then some "Fund Size (HKD\x27m)"
  else if hasSeg "Risk  Class" l1 || hasSeg "Risk Class" l1 then some "Risk Class"
  else if hasSeg "Latest FER" l1 then some "FER (%)"
  else if hasSeg "Details" l1 then some "Details"
  else none

/-- Keep a return column: record its index, canonical name and role key. -/
def addCol (s : SelState) (idx : Nat) (n k : String) : SelState :=
  ⟨s.keep ++ [idx], s.names ++ [n], s.seen ++ [k]⟩

/-- The return-column branches of `mpf_scrape.parse_main_table`
(lines 152-211): disambiguate duplicate-by-spanning columns by the pandas
`.1`/`.2`/`.3` suffixes on `level_2`, keeping the first column of each
still-unseen role (`seen_return_periods`). -/
def stepEnReturn (s : SelState) (idx : Nat) (l2 : String) : SelState :=
  if hasSeg "1 Year" l2 then
    if !(hasSeg ".1" l2) && !(hasSeg ".2" l2) && !(hasSeg ".3" l2) then
      if "1Y_ann" ∈ s.seen then s
      else addCol s idx "Annualized Return (% p.a.) - 1 Year" "1Y_ann"
    else if l2 = "1 Year.1" then
      if "1Y_cum" ∈ s.seen then s
      else addCol s idx "Cumulative Return (%) - 1 Year" "1Y_cum"
    else if l2 = "1 Year.2" then
      if "1Y_cy2024" ∈ s.seen then s
      else addCol s idx "Calendar Year Return (%) - 2024" "1Y_cy2024"
    else if l2 = "1 Year.3" then
      if "1Y_cy2023" ∈ s.seen then s
      else addCol s idx "Calendar Year Return (%) - 2023" "1Y_cy2023"
    else s
  else if hasSeg "5 Year" l2 then
    if l2 = "5 Year" && !("5Y_ann" ∈ s.seen) then
      addCol s idx "Annualized Return (% p.a.) - 5 Year" "5Y_ann"
    else if l2 = "5 Year.1" && !("5Y_cum" ∈ s.seen) then
      addCol s idx "Cumulative Return (%) - 5 Year" "5Y_cum"
    else s
  else if hasSeg "10 Year" l2 then
    if !("10Y_ann" ∈ s.seen) then
      addCol s idx "Annualized Return (% p.a.) - 10 Year" "10Y_ann"
    else if !("10Y_cum" ∈ s.seen) then
      addCol s idx "Cumulative Return (%) - 10 Year" "10Y_cum"
    else s
  else if hasSeg "Since" l2 && hasSeg "Launch" l2 then
    if !("SL_ann" ∈ s.seen) then
      addCol s idx "Annualized Return (% p.a.) - Since Launch" "SL_ann"
    else if !("SL_cum" ∈ s.seen) then
      addCol s idx "Cumulative Return (%) - Since Launch" "SL_cum"
    else s
  else s

/-- One iteration of the column loop of `mpf_scrape.parse_main_table`
(lines 104-211): skip all-`Unnamed` spacers, then the basic-field chain on
`level_1`, then the return-column chain on `level_2`. -/
def stepEn (s : SelState) (idx : Nat) (col : String × String × String) : SelState :=
  let l0 := pyStrip col.1
  let l1 := pyStrip col.2.1
  let l2 := pyStrip col.2.2
  if hasSeg "Unnamed" l0 && hasSeg "Unnamed" l1 && hasSeg "Unnamed" l2 then s
  else
    match basicNameEn l1 with
    | some n => { s with keep := s.keep ++ [idx], names := s.names ++ [n] }
    | none => stepEnReturn s idx l2

/-- The enumerated column loop. -/
def selEnAux : Nat → List (String × String × String) → SelState → SelState
  | _, [], s => s
  | idx, c :: cs, s => selEnAux (idx + 1) cs (stepEn s idx c)

/-- Column classification of `mpf_scrape.parse_main_table`. -/
def selectColumns (cols : List (String × String × String)) : SelState :=
  selEnAux 0 cols ⟨[], [], []⟩

/-- `mpf_scrape.parse_main_table` (lines 81-223). -/
def parse_main_table (tables : List RawTable) : Except String CleanTable :=
  if tables = [] then .error "No HTML tables were found on the page."
  else
    let df := pickMaxRows tables
    let st := selectColumns df.cols
    let rows := (df.rows.map (takeCols st.keep)).filter (fun r => !(rowAllNan r))
    .ok ⟨st.names, rows⟩

end MpfScrape

namespace MpfScrapeJson

open MPF

/-- The three served locales, in the order `['en', 'zh', 'cn']` iterated by
`combine_all_languages`. -/
inductive Lang where
  | en
  | zh
  | cn
  deriving DecidableEq

/-- `LANGUAGE_LABELS` of `mpf_scrape_json.py` (lines 27-31). -/
def LANGUAGE_LABELS : Lang → String
  | .en => "english"
  | .zh => "traditional_chinese"
  | .cn => "simplified_chinese"

/-- `df[key] = value` observed on one record: overwrite the value when the
key is already a column, otherwise append the new column at the end. -/
def setField (r : Record) (k : String) (v : Value) : Record :=
  if r.any (fun kv => kv.1 = k) then
    r.map (fun kv => if kv.1 = k then (k, v) else kv)
  else r ++ [(k, v)]

/-- A per-locale fetch-parse pipeline outcome: the parsed records plus the
extracted update-date string, or the raised error.  This abstracts
`fetch_html`/`extract_update_date`/`parse_main_table` as one fallible step. -/
abbrev Pipeline := Lang → Except String (List Record × Option String)

/-- `mpf_scrape_json.scrape_language` (lines 191-206): run the per-locale
pipeline and add the `_language` column holding the locale label. -/
def scrape_language (pipe : Pipeline) (lang : Lang) :
    Except String (List Record × Option String) :=
  (pipe lang).map fun p =>
    (p.1.map (fun r => setField r "_language" (.str (LANGUAGE_LABELS lang))), p.2)

/-- One iteration of the `for lang in ['en', 'zh', 'cn']` loop of
`combine_all_languages` (lines 217-232): on success extend `all_data` with
the locale's records (recording the update date for English); on error the
`except` branch drops the locale and the loop continues. -/
def combineStep (pipe : Pipeline) (lang : Lang)
    (acc : List Record × Option String) : List Record × Option String :=
  match scrape_language pipe lang with
  | .ok (records, dateStr) =>
      let upd :=
        if lang = .en then
          match dateStr with
          | some d => if d = "" then acc.2 else some ("Latest information as of " ++ d)
          | none => acc.2
        else acc.2
      (acc.1 ++ records, upd)
  | .error _ => acc

/-- Insert a string into an ascending list (for Python `sorted`). -/
def insertSorted (x : String) : List String → List String
  | [] => [x]
  | y :: ys => if y < x then y :: insertSorted x ys else x :: y :: ys

/-- Python `sorted` on strings. -/
def sortStrings (l : List String) : List String := l.foldr insertSorted []

/-- Deduplicate a string list (Python `set` before `sorted`). -/
def dedupStr : List String → List String
  | [] => []
  | x :: xs => let r := dedupStr xs; if x ∈ r then r else x :: r

/-- The structure returned by `combine_all_languages` (lines 247-252):
`table_data` is the flat list of per-locale records. -/
structure CombinedOutput where
  data_update_date : String
  table_data : List Record
  columns : List String
  available_languages : List String
  deriving DecidableEq

/-- `mpf_scrape_json.combine_all_languages` (lines 208-252): scrape the
three locales in order, isolating per-locale failures, and return the flat
record list together with the sorted column-name list (`_language`
excluded). -/
def combine_all_languages (pipe : Pipeline) : CombinedOutput :=
  let s1 := combineStep pipe .en ([], none)
  let s2 := combineStep pipe .zh s1
  let s3 := combineStep pipe .cn s2
  let all_data := s3.1
  let columns :=
    sortStrings ((dedupStr (all_data.flatMap (fun r => r.map Prod.fst))).filter
      (fun k => !(k = "_language")))
  { data_update_date := s3.2.getD "Unknown"
    table_data := all_data
    columns := columns
    available_languages := ["english", "traditional_chinese", "simplified_chinese"] }

/-- Render one decimal digit. -/
def digitChar (d : Nat) : Char := Char.ofNat (48 + d % 10)

/-- Insert a grouping comma after every third digit of a reversed digit
list. -/
def group3Rev : List Char → List Char
  | [] => []
  | [d1] => [d1]
  | [d1, d2] => [d1, d2]
  | d1 :: d2 :: d3 :: rest =>
      match rest with
      | [] => [d1, d2, d3]
      | _ :: _ => d1 :: d2 :: d3 :: ',' :: group3Rev rest

/-- Render an integer-digit list with grouping separators every three
digits. -/
def renderIntGrouped (ds : List Nat) : List Char :=
  (group3Rev ((ds.map digitChar).reverse)).reverse

/-- Sign rendering. -/
def renderSign (b : Bool) : List Char := if b then ['-'] else []

/-- Modelled from the spec: the Fund Size branch of
`format_dataframe_for_json`, which is imported by the repository's tests
from `mpf_scrape_json` but missing from `src/`.  Per spec section 4.2: a
numeric value is rendered as text with grouping separators every three
digits, preserving the source value's decimal digits; a string passes
through unchanged; missing stays missing. -/
def formatFundSize : Value → Value
  | .num d =>
      .str ⟨renderSign d.neg ++ renderIntGrouped d.intDigits ++
        (if d.fracDigits = [] then [] else '.' :: d.fracDigits.map digitChar)⟩
  | v => v

/-- Drop trailing zeros of a fractional-digit list. -/
def dropTrailZeros (l : List Nat) : List Nat := (l.reverse.dropWhile (fun d => d = 0)).reverse

/-- Modelled from the spec: the calendar-year-return branch of
`format_dataframe_for_json` (missing from `src/`).  Per spec section 4.2:
a numeric value is converted with shortest round-trip float-to-text
conversion, here modelled on the decimal source value as dropping trailing
fractional zeros while keeping at least one fractional digit (`7.10` →
`"7.1"`, `6.0` → `"6.0"`); a string passes through unchanged. -/
def formatCYReturn : Value → Value
  | .num d =>
      let fr := dropTrailZeros d.fracDigits
      .str ⟨renderSign d.neg ++ d.intDigits.map digitChar ++
        (if d.fracDigits = [] then []
         else '.' :: (if fr = [] then [0] else fr).map digitChar)⟩
  | v => v

/-- Is the column a calendar-year-return field? -/
def isCYRKey (k : String) : Bool := hasSeg "Calendar Year Return" k

/-- Modelled from the spec: per-cell dispatch of
`format_dataframe_for_json` (missing from `src/`): only the Fund Size
column and the calendar-year-return columns are normalized; all other
fields pass through untouched. -/
def formatCell (k : String) (v : Value) : Value :=
  if k = "Fund size (HKD\x27 m)" then formatFundSize v
  else if isCYRKey k then formatCYReturn v
  else v

/-- Modelled from the spec: `format_dataframe_for_json` (imported by
`test_edge_cases.py`, `test_formatting.py` and `test_final_validation.py`
but missing from `src/`), applied record-wise to a locale dataset. -/
def format_dataframe_for_json (ds : List Record) : List Record :=
  ds.map fun r => r.map fun kv => (kv.1, formatCell kv.1 kv.2)

/-- Modelled from the spec: the missing-value stripping applied when
records are finalized for external output (spec section 4.2; in the tests:
`{k: v for k, v in record.items() if pd.notna(v)}`).  The finalization
step itself is missing from `src/`. -/
def clean_record (r : Record) : Record := r.filter fun kv => !(kv.2 = Value.nan)

/-- An English term mapped to its per-locale translations. -/
abbrev TranslationMap := List (String × List (String × String))

/-- First occurrence wins: a key already present is never overwritten. -/
def tmInsert (m : TranslationMap) (key : String) (entries : List (String × String)) :
    TranslationMap :=
  if m.any (fun p => p.1 = key) then m else m ++ [(key, entries)]

/-- Split a composite label at the first ASCII hyphen or em dash, trimming
surrounding whitespace; `none` when no separator occurs. -/
def splitSepAux : List Char → List Char → Option (String × String)
  | _, [] => none
  | acc, c :: rest =>
      if c = '-' || c = '—' then some (pyStrip ⟨acc.reverse⟩, pyStrip ⟨rest⟩)
      else splitSepAux (c :: acc) rest

/-- Split a "Fund Type" label into (type, category). -/
def splitTypeCategory (s : String) : Option (String × String) :=
  splitSepAux [] s.toList

/-- A position-indexed combined entry: locale label to record. -/
abbrev CombinedEntry := List (String × Record)

/-- Dictionary access on a combined entry: the record stored under a locale
label. -/
def lookupEntry : CombinedEntry → String → Option Record
  | [], _ => none
  | kv :: t, k => if kv.1 = k then some kv.2 else lookupEntry t k

/-- The (type, category) split of every non-English locale with a
splittable "Fund Type" at this position. -/
def localeSplits (entry : CombinedEntry) : List (String × (String × String)) :=
  entry.filterMap fun p =>
    if p.1 = "english" then none
    else
      match lookupKey p.2 "Fund Type" with
      | some (.str s) => (splitTypeCategory s).map fun tc => (p.1, tc)
      | _ => none

/-- Modelled from the spec: `build_fund_type_maps` (imported by
`test_final_validation.py` but missing from `src/`).  Per spec section
4.4: for each row position whose English "Fund Type" splits at the first
hyphen/em-dash separator and that carries the field in at least one other
locale, apply the identical split to each other locale and record
type→{locale: translated type} and category→{locale: translated category}
keyed by the English strings; a key's mapping is fixed on first
occurrence; rows without the field or without a separator are skipped. -/
def build_fund_type_maps (table_data : List (String × CombinedEntry)) :
    TranslationMap × TranslationMap :=
  table_data.foldl
    (fun maps row =>
      match (lookupEntry row.2 "english").bind (fun r => lookupKey r "Fund Type") with
      | some (.str s) =>
          match splitTypeCategory s with
          | some tc =>
              let locs := localeSplits row.2
              if locs = [] then maps
              else
                (tmInsert maps.1 tc.1 (locs.map fun p => (p.1, p.2.1)),
                 tmInsert maps.2 tc.2 (locs.map fun p => (p.1, p.2.2)))
          | none => maps
      | _ => maps)
    ([], [])

/-- Has a column been recognized by any classification rule of
`mpf_scrape_json.parse_main_table` (and hence possibly kept)?  All-`Unnamed`
spacers are dropped before any rule is tried. -/
def recognizedJson (c : String × String × String) : Bool :=
  if hasSeg "Unnamed" (pyStrip c.1) && hasSeg "Unnamed" (pyStrip c.2.1) &&
      hasSeg "Unnamed" (pyStrip c.2.2) then false
  else (basicNameJson (pyStrip c.2.1)).isSome || hasAnyYear (pyStrip c.1)

/-- Is a canonical column name a calendar-year-return name? -/
def isCYName (n : String) : Bool := hasSeg "Calendar Year Return" n

/-- Lookup in one locale map of a translation map. -/
def locGet : List (String × String) → String → Option String
  | [], _ => none
  | kv :: t, k => if kv.1 = k then some kv.2 else locGet t k

/-- `map[k][lang]` lookup in a translation map. -/
def tmGet : TranslationMap → String → String → Option String
  | [], _, _ => none
  | kv :: t, k, lang => if kv.1 = k then locGet kv.2 lang else tmGet t k lang

/-- The record as tagged by `scrape_language`: the `_language` column set
to the locale label. -/
def tagRec (l : Lang) (r : Record) : Record :=
  setField r "_language" (.str (LANGUAGE_LABELS l))

/-- A three-locale run in which every pipeline succeeds with two rows per
locale (the shape mocked by `test_indexed_table_data_structure`). -/
def c1Pipe : Pipeline := fun l =>
  match l with
  | .en => .ok ([[("Scheme", .str "Scheme EN")], [("Scheme", .str "Scheme EN B")]], none)
  | .zh => .ok ([[("Scheme", .str "Scheme ZH")], [("Scheme", .str "Scheme ZH B")]], none)
  | .cn => .ok ([[("Scheme", .str "Scheme CN")], [("Scheme", .str "Scheme CN B")]], none)

/-- A run in which the Traditional-Chinese pipeline raises a fatal error
while the other two locales succeed. -/
def c4Pipe : Pipeline := fun l =>
  match l with
  | .en => .ok ([[("Scheme", .str "Scheme EN")]], some "31 Oct 2025")
  | .zh => .error "Failed to fetch HTML after 3 attempts"
  | .cn => .ok ([[("Scheme", .str "Scheme CN")]], none)

/-- The combined-index fixture of `test_build_fund_type_maps` (hyphen
separator). -/
def c2TableData : List (String × CombinedEntry) := [
  ("54", [
    ("english",
      [("Scheme", .str "BCOM Joyful Retirement MPF Scheme"),
       ("Constituent Fund", .str "BCOM China Dynamic Equity (CF) Fund"),
       ("MPF Trustee", .str "BCOM"),
       ("Fund Type", .str "Equity Fund - China Equity Fund")]),
    ("traditional_chinese",
      [("Scheme", .str "交通銀行愉盈退休強積金計劃"),
       ("Constituent Fund", .str "交通銀行中國動力股票成分基金"),
       ("MPF Trustee", .str "交通"),
       ("Fund Type", .str "股票基金 - 中國股票基金")]),
    ("simplified_chinese",
      [("Fund Type", .str "股票基金 - 中国股票基金")])]),
  ("55", [
    ("english", [("Fund Type", .str "Mixed Assets Fund - Balanced Fund")]),
    ("traditional_chinese", [("Fund Type", .str "混合資產基金 - 平衡基金")]),
    ("simplified_chinese", [("Fund Type", .str "混合资产基金 - 平衡基金")])])]

/-- The em-dash fixture of `test_build_fund_type_maps`. -/
def c2TableDataEm : List (String × CombinedEntry) := [
  ("100", [
    ("english", [("Fund Type", .str "Money Market Fund - MPF Conservative Fund")]),
    ("traditional_chinese", [("Fund Type", .str "貨幣市場基金 — 強積金保守基金")]),
    ("simplified_chinese", [("Fund Type", .str "货币市场基金 — 强积金保守基金")])])]

end MpfScrapeJson

namespace MpfScrape

open MPF

/-- The canonical names of return-related columns paired with their
`seen_return_periods` role keys. -/
def returnRolePairs : List (String × String) := [
  ("Annualized Return (% p.a.) - 1 Year", "1Y_ann"),
  ("Cumulative Return (%) - 1 Year", "1Y_cum"),
  ("Calendar Year Return (%) - 2024", "1Y_cy2024"),
  ("Calendar Year Return (%) - 2023", "1Y_cy2023"),
  ("Annualized Return (% p.a.) - 5 Year", "5Y_ann"),
  ("Cumulative Return (%) - 5 Year", "5Y_cum"),
  ("Annualized Return (% p.a.) - 10 Year", "10Y_ann"),
  ("Cumulative Return (%) - 10 Year", "10Y_cum"),
  ("Annualized Return (% p.a.) - Since Launch", "SL_ann"),
  ("Cumulative Return (%) - Since Launch", "SL_cum")]

/-- Is a canonical column name a return-related name? -/
def isReturnName (n : String) : Bool := returnRolePairs.any (fun p => p.1 = n)

/-- The `seen_return_periods` role key of a return-related column name. -/
def roleKeyOf (n : String) : String :=
  ((returnRolePairs.find? (fun p => p.1 = n)).map Prod.snd).getD ""

/-- The loop invariant tying kept return-column names to the
`seen_return_periods` set: the kept return names map bijectively (in
order) onto the seen role keys, which never repeat. -/
def SeenInv (s : SelState) : Prop :=
  (s.names.filter isReturnName).map roleKeyOf = s.seen ∧ s.seen.Nodup

end MpfScrape

namespace MPF

open MpfScrapeJson

theorem formatFundSize_idem (v : Value) :
    formatFundSize (formatFundSize v) = formatFundSize v := by
  cases v <;> rfl

theorem formatCYReturn_idem (v : Value) :
    formatCYReturn (formatCYReturn v) = formatCYReturn v := by
  cases v <;> rfl

theorem formatCell_idem (k : String) (v : Value) :
    formatCell k (formatCell k v) = formatCell k v := by
  unfold formatCell
  split_ifs
  · exact formatFundSize_idem v
  · exact formatCYReturn_idem v
  · rfl

/-- C6: a numeric Fund Size value is rendered as text with grouping
separators every three digits, preserving the source value's decimal
digits (`2533.59` → `"2,533.59"`, `0.12` → `"0.12"`, `999999999.99` →
`"999,999,999.99"`), and a Fund Size value that is already a string is
returned unchanged. -/
theorem C6_fund_size_formatting :
    (∀ s, formatFundSize (.str s) = .str s) ∧
    formatFundSize (.num ⟨false, [2, 5, 3, 3], [5, 9]⟩) = .str "2,533.59" ∧
    formatFundSize (.num ⟨false, [0], [1, 2]⟩) = .str "0.12" ∧
    formatFundSize (.num ⟨false, [9, 9, 9, 9, 9, 9, 9, 9, 9], [9, 9]⟩) =
      .str "999,999,999.99" :=
  ⟨fun _ => rfl, rfl, rfl, rfl⟩

/-- C7: a numeric calendar-year-return value is converted to text with the
trailing zero dropped (`7.10` → `"7.1"`, `-14.78` → `"-14.78"`, `-3.14` →
`"-3.14"`), and a calendar-year-return value that is already a string is
returned unchanged. -/
theorem C7_cyr_formatting :
    (∀ s, formatCYReturn (.str s) = .str s) ∧
    formatCYReturn (.num ⟨false, [7], [1, 0]⟩) = .str "7.1" ∧
    formatCYReturn (.num ⟨true, [1, 4], [7, 8]⟩) = .str "-14.78" ∧
    formatCYReturn (.num ⟨true, [3], [1, 4]⟩) = .str "-3.14" :=
  ⟨fun _ => rfl, rfl, rfl, rfl⟩

/-- C9: the value formatter is idempotent — applying
`format_dataframe_for_json` to its own output returns that output
unchanged, for every dataset. -/
theorem C9_formatter_idempotent (ds : List Record) :
    format_dataframe_for_json (format_dataframe_for_json ds) =
      format_dataframe_for_json ds := by
  simp only [format_dataframe_for_json, List.map_map]
  congr 1
  funext r
  simp only [Function.comp, List.map_map]
  congr 1
  funext kv
  simp [Function.comp, formatCell_idem]

/-- C5: a finalized record stores a key exactly when the source record has
a non-missing value under that key; in particular a record with Fund Size
and one Calendar-Year-Return field missing lacks exactly those two keys,
with all other present keys intact. -/
theorem C5_missing_values_stripped :
    (∀ (r : Record) (k : String),
        (∃ v, (k, v) ∈ clean_record r) ↔ ∃ v, (k, v) ∈ r ∧ v ≠ .nan) ∧
    clean_record
      [("Scheme", .str "A"), ("Fund size (HKD\x27 m)", .nan),
       ("Risk Class", .str "4"),
       ("Calendar Year Return (%)\n-  2023", .nan),
       ("Calendar Year Return (%)\n-  2024", .str "3.09")] =
      [("Scheme", .str "A"), ("Risk Class", .str "4"),
       ("Calendar Year Return (%)\n-  2024", .str "3.09")] := by
  constructor
  · intro r k
    constructor
    · rintro ⟨v, hv⟩
      rw [clean_record, List.mem_filter] at hv
      refine ⟨v, hv.1, ?_⟩
      simpa using hv.2
    · rintro ⟨v, hv, hne⟩
      refine ⟨v, ?_⟩
      rw [clean_record, List.mem_filter]
      exact ⟨hv, by simpa using hne⟩
  · rfl

/-- C1 (code bug): with all three locale pipelines succeeding (two rows
per locale), `combine_all_languages` as implemented returns `table_data`
as the flat six-record list with the `_language` marker still present in
every record, and an obsolete `columns` key — not the claimed mapping from
stringified row position to locale label to `_language`-stripped record
that `test_indexed_table_data_structure` requires. -/
theorem C1_flat_output :
    (combine_all_languages c1Pipe).table_data =
      [[("Scheme", .str "Scheme EN"), ("_language", .str "english")],
       [("Scheme", .str "Scheme EN B"), ("_language", .str "english")],
       [("Scheme", .str "Scheme ZH"), ("_language", .str "traditional_chinese")],
       [("Scheme", .str "Scheme ZH B"), ("_language", .str "traditional_chinese")],
       [("Scheme", .str "Scheme CN"), ("_language", .str "simplified_chinese")],
       [("Scheme", .str "Scheme CN B"), ("_language", .str "simplified_chinese")]] ∧
    (combine_all_languages c1Pipe).columns = ["Scheme"] :=
  ⟨rfl, rfl⟩

theorem splitSepAux_spec (cs : List Char) : ∀ (acc : List Char) (t c : String),
    splitSepAux acc cs = some (t, c) →
    ∃ pre sep post, cs = pre ++ sep :: post ∧ (sep = '-' ∨ sep = '—') ∧
      (∀ x ∈ pre, ¬(x = '-' ∨ x = '—')) ∧
      t = pyStrip ⟨acc.reverse ++ pre⟩ ∧ c = pyStrip ⟨post⟩ := by
  induction cs with
  | nil => intro acc t c h; simp [splitSepAux] at h
  | cons x rest ih =>
    intro acc t c h
    rw [splitSepAux] at h
    by_cases hx : (x = '-' || x = '—') = true
    · rw [if_pos hx] at h
      obtain ⟨ht, hc⟩ : pyStrip ⟨acc.reverse⟩ = t ∧ pyStrip ⟨rest⟩ = c := by
        simpa using h
      refine ⟨[], x, rest, by simp, by simpa using hx, by simp, ?_, hc.symm⟩
      simp [← ht]
    · rw [if_neg hx] at h
      obtain ⟨pre, sep, post, hcs, hsep, hpre, ht, hc⟩ := ih (x :: acc) t c h
      refine ⟨x :: pre, sep, post, by simp [hcs], hsep, ?_, ?_, hc⟩
      · intro y hy
        rcases List.mem_cons.1 hy with rfl | hy
        · simpa using hx
        · exact hpre y hy
      · simpa [List.append_assoc] using ht

/-- C2: `build_fund_type_maps` splits each locale's "Fund Type" string
into exactly two parts at the first ASCII hyphen or em dash (surrounding
whitespace trimmed) and keys the maps by the English type and category; in
particular the test fixtures give
`fund_type_map["Equity Fund"]["traditional_chinese"] = "股票基金"` and
`fund_category_map["China Equity Fund"]["traditional_chinese"] =
"中國股票基金"`, with an em dash handled identically to a hyphen. -/
theorem C2_translation_maps :
    (∀ s t c, splitTypeCategory s = some (t, c) →
        ∃ pre sep post, s.toList = pre ++ sep :: post ∧ (sep = '-' ∨ sep = '—') ∧
          (∀ x ∈ pre, ¬(x = '-' ∨ x = '—')) ∧
          t = pyStrip ⟨pre⟩ ∧ c = pyStrip ⟨post⟩) ∧
    tmGet (build_fund_type_maps c2TableData).1 "Equity Fund" "traditional_chinese" =
      some "股票基金" ∧
    tmGet (build_fund_type_maps c2TableData).2 "China Equity Fund" "traditional_chinese" =
      some "中國股票基金" ∧
    tmGet (build_fund_type_maps c2TableData).1 "Mixed Assets Fund" "simplified_chinese" =
      some "混合资产基金" ∧
    tmGet (build_fund_type_maps c2TableDataEm).1 "Money Market Fund" "traditional_chinese" =
      some "貨幣市場基金" ∧
    tmGet (build_fund_type_maps c2TableDataEm).2 "MPF Conservative Fund" "simplified_chinese" =
      some "强积金保守基金" := by
  refine ⟨?_, rfl, rfl, rfl, rfl, rfl⟩
  intro s t c h
  obtain ⟨pre, sep, post, hcs, hsep, hpre, ht, hc⟩ := splitSepAux_spec s.toList [] t c h
  exact ⟨pre, sep, post, hcs, hsep, hpre, by simpa using ht, hc⟩

/-- Witness for C2: applying the split characterization at the concrete
English label of the test fixture. -/
theorem C2_witness :
    splitTypeCategory "Equity Fund - China Equity Fund" =
      some ("Equity Fund", "China Equity Fund") ∧
    (∃ pre sep post,
        ("Equity Fund - China Equity Fund").toList = pre ++ sep :: post ∧
        (sep = '-' ∨ sep = '—') ∧ (∀ x ∈ pre, ¬(x = '-' ∨ x = '—')) ∧
        "Equity Fund" = pyStrip ⟨pre⟩ ∧ "China Equity Fund" = pyStrip ⟨post⟩) :=
  ⟨rfl, C2_translation_maps.1 _ _ _ rfl⟩

theorem stepJson_not_recognized (s : SelState) (idx : Nat)
    (c : String × String × String) (h : recognizedJson c = false) :
    stepJson s idx c = s := by
  rw [recognizedJson] at h
  rw [stepJson]
  by_cases hu : (hasSeg "Unnamed" (pyStrip c.1) && hasSeg "Unnamed" (pyStrip c.2.1) &&
      hasSeg "Unnamed" (pyStrip c.2.2)) = true
  · rw [if_pos hu]
  · rw [if_neg hu]
    rw [if_neg hu] at h
    obtain ⟨hb, hy⟩ := by simpa [Bool.or_eq_false_iff] using h
    rcases hn : basicNameJson (pyStrip c.2.1) with _ | n
    · rw [hy]
      simp
    · rw [hn] at hb
      simp at hb

theorem selJsonAux_not_recognized : ∀ (cs : List (String × String × String))
    (idx : Nat) (s : SelState),
    (∀ c ∈ cs, recognizedJson c = false) → selJsonAux idx cs s = s := by
  intro cs
  induction cs with
  | nil => intro idx s _; rfl
  | cons c t ih =>
    intro idx s h
    rw [selJsonAux, stepJson_not_recognized s idx c (h c (by simp))]
    exact ih (idx + 1) s (fun x hx => h x (by simp [hx]))

theorem filter_takeCols_nil : ∀ rs : List (List Value),
    (rs.map (takeCols [])).filter (fun r => !(rowAllNan r)) = [] := by
  intro rs
  induction rs with
  | nil => rfl
  | cons r t ih => simpa [takeCols, rowAllNan] using ih

/-- C3 counterexample: a table whose single column matches none of the
header-classification rules.  `parse_main_table` returns a table (with an
empty schema) instead of failing: no `SchemaMismatchError` exists anywhere
in the code, whose only raised error is the no-tables `ValueError`. -/
theorem C3_counterexample :
    MpfScrapeJson.parse_main_table
      [⟨[("Foo", "Bar", "Baz")], [[.str "x"]]⟩] = .ok ⟨[], []⟩ := rfl

/-- C3 amended: when zero columns of the selected table are recognized by
any classification rule, `parse_main_table` does not fail; it returns the
empty table (no columns kept, every row dropped by `dropna(how='all')`). -/
theorem C3_amended (tables : List RawTable) (hne : tables ≠ [])
    (hz : ∀ c ∈ (pickMaxRows tables).cols, recognizedJson c = false) :
    MpfScrapeJson.parse_main_table tables = .ok ⟨[], []⟩ := by
  have hsel : selectColumnsJson (pickMaxRows tables).cols = ⟨[], [], []⟩ :=
    selJsonAux_not_recognized _ 0 _ hz
  rw [MpfScrapeJson.parse_main_table, if_neg hne]
  simp only [hsel, filter_takeCols_nil]

/-- Witness for C3 amended: a concrete two-column, two-row table in which
no column is recognized (one column even carries the out-of-range year
2025). -/
theorem C3_amended_witness :
    MpfScrapeJson.parse_main_table
      [⟨[("Outer", "Header", "X"), ("Year 2025", "Qux", "Y")],
        [[.str "a", .str "b"], [.nan, .nan]]⟩] = .ok ⟨[], []⟩ :=
  C3_amended _ (by simp) (by decide)

theorem lookupKey_overwrite (r : Record) (k : String) (v : Value)
    (h : r.any (fun kv => kv.1 = k) = true) :
    lookupKey (r.map fun kv => if kv.1 = k then (k, v) else kv) k = some v := by
  induction r with
  | nil => simp at h
  | cons kv t ih =>
    by_cases hk : kv.1 = k
    · simp [lookupKey, hk]
    · have h2 : t.any (fun kv => kv.1 = k) = true := by
        simpa [List.any_cons, hk] using h
      simp [lookupKey, hk, ih h2]

theorem lookupKey_append_new (r : Record) (k : String) (v : Value)
    (h : r.any (fun kv => kv.1 = k) = false) :
    lookupKey (r ++ [(k, v)]) k = some v := by
  induction r with
  | nil => simp [lookupKey]
  | cons kv t ih =>
    obtain ⟨h1, h2⟩ : ¬(kv.1 = k) ∧ t.any (fun kv => kv.1 = k) = false := by
      simpa [List.any_cons] using h
    simp [lookupKey, h1, ih h2]

theorem lookupKey_tagRec (l : Lang) (r : Record) :
    lookupKey (tagRec l r) "_language" = some (.str (LANGUAGE_LABELS l)) := by
  rw [tagRec, setField]
  by_cases h : r.any (fun kv => kv.1 = "_language") = true
  · rw [if_pos h]
    exact lookupKey_overwrite r _ _ h
  · rw [if_neg h]
    exact lookupKey_append_new r _ _ (Bool.eq_false_iff.mpr h)

/-- The merged record list, expressed per locale: a failed locale
contributes nothing, a succeeding one its tagged records, in the fixed
`en`, `zh`, `cn` order. -/
theorem combine_table_data (pipe : Pipeline) :
    (combine_all_languages pipe).table_data =
      (match pipe .en with | .ok r => r.1.map (tagRec .en) | .error _ => []) ++
      ((match pipe .zh with | .ok r => r.1.map (tagRec .zh) | .error _ => []) ++
       (match pipe .cn with | .ok r => r.1.map (tagRec .cn) | .error _ => [])) := by
  rw [combine_all_languages]
  rcases h1 : pipe .en with e1 | r1 <;> rcases h2 : pipe .zh with e2 | r2 <;>
    rcases h3 : pipe .cn with e3 | r3 <;>
      simp [combineStep, scrape_language, h1, h2, h3, Except.map] <;>
      first
      | rfl
      | (intro a _; rfl)

/-- C4: when one locale's pipeline raises a fatal error while the others
succeed, the error is caught at the per-locale boundary (the merge is a
total function), no record tagged with the failed locale's label occurs
anywhere in the output, and every succeeding locale's records are all
included, tagged with their own label. -/
theorem C4_locale_isolation (pipe : Pipeline) (f : Lang) (e : String)
    (hf : pipe f = .error e)
    (hok : ∀ l : Lang, l ≠ f → ∃ r, pipe l = .ok r) :
    (∀ rec ∈ (combine_all_languages pipe).table_data,
        lookupKey rec "_language" ≠ some (.str (LANGUAGE_LABELS f))) ∧
    (∀ l : Lang, l ≠ f → ∀ r, pipe l = .ok r →
        ∀ rec ∈ r.1, tagRec l rec ∈ (combine_all_languages pipe).table_data) := by
  have htd := combine_table_data pipe
  cases f
  · obtain ⟨rZ, hZ⟩ := hok .zh (by decide)
    obtain ⟨rC, hC⟩ := hok .cn (by decide)
    rw [hf, hZ, hC] at htd
    simp only [List.nil_append] at htd
    constructor
    · intro rec hrec heq
      rw [htd] at hrec
      rcases List.mem_append.1 hrec with hm | hm <;>
        obtain ⟨r0, _, rfl⟩ := List.mem_map.1 hm <;>
          rw [lookupKey_tagRec] at heq <;> simp [LANGUAGE_LABELS] at heq
    · intro l hl r hr rec hrec
      rw [htd]
      cases l
      · exact absurd rfl hl
      · rw [hZ] at hr
        obtain rfl : r = rZ := by simpa using hr.symm
        exact List.mem_append_left _ (List.mem_map_of_mem _ hrec)
      · rw [hC] at hr
        obtain rfl : r = rC := by simpa using hr.symm
        exact List.mem_append_right _ (List.mem_map_of_mem _ hrec)
  · obtain ⟨rE, hE⟩ := hok .en (by decide)
    obtain ⟨rC, hC⟩ := hok .cn (by decide)
    rw [hf, hE, hC] at htd
    simp only [List.nil_append] at htd
    constructor
    · intro rec hrec heq
      rw [htd] at hrec
      rcases List.mem_append.1 hrec with hm | hm <;>
        obtain ⟨r0, _, rfl⟩ := List.mem_map.1 hm <;>
          rw [lookupKey_tagRec] at heq <;> simp [LANGUAGE_LABELS] at heq
    · intro l hl r hr rec hrec
      rw [htd]
      cases l
      · rw [hE] at hr
        obtain rfl : r = rE := by simpa using hr.symm
        exact List.mem_append_left _ (List.mem_map_of_mem _ hrec)
      · exact absurd rfl hl
      · rw [hC] at hr
        obtain rfl : r = rC := by simpa using hr.symm
        exact List.mem_append_right _ (List.mem_map_of_mem _ hrec)
  · obtain ⟨rE, hE⟩ := hok .en (by decide)
    obtain ⟨rZ, hZ⟩ := hok .zh (by decide)
    rw [hf, hE, hZ] at htd
    simp only [List.append_nil] at htd
    constructor
    · intro rec hrec heq
      rw [htd] at hrec
      rcases List.mem_append.1 hrec with hm | hm <;>
        obtain ⟨r0, _, rfl⟩ := List.mem_map.1 hm <;>
          rw [lookupKey_tagRec] at heq <;> simp [LANGUAGE_LABELS] at heq
    · intro l hl r hr rec hrec
      rw [htd]
      cases l
      · rw [hE] at hr
        obtain rfl : r = rE := by simpa using hr.symm
        exact List.mem_append_left _ (List.mem_map_of_mem _ hrec)
      · rw [hZ] at hr
        obtain rfl : r = rZ := by simpa using hr.symm
        exact List.mem_append_right _ (List.mem_map_of_mem _ hrec)
      · exact absurd rfl hl

/-- Witness for C4: the concrete run in which Traditional Chinese fails
and English and Simplified Chinese succeed. -/
theorem C4_witness :
    (∀ rec ∈ (combine_all_languages c4Pipe).table_data,
        lookupKey rec "_language" ≠ some (.str (LANGUAGE_LABELS .zh))) ∧
    (∀ l : Lang, l ≠ .zh → ∀ r, c4Pipe l = .ok r →
        ∀ rec ∈ r.1, tagRec l rec ∈ (combine_all_languages c4Pipe).table_data) :=
  C4_locale_isolation c4Pipe .zh "Failed to fetch HTML after 3 attempts" rfl
    (by
      intro l hl
      cases l
      · exact ⟨_, rfl⟩
      · exact absurd rfl hl
      · exact ⟨_, rfl⟩)

theorem addCol_inv (s : SelState) (idx : Nat) (n k : String)
    (hinv : MpfScrape.SeenInv s) (hn : MpfScrape.isReturnName n = true)
    (hk : MpfScrape.roleKeyOf n = k) (hns : k ∉ s.seen) :
    MpfScrape.SeenInv (MpfScrape.addCol s idx n k) := by
  obtain ⟨h1, h2⟩ := hinv
  constructor
  · show ((s.names ++ [n]).filter _).map _ = s.seen ++ [k]
    rw [List.filter_append, List.map_append, h1]
    simp [List.filter_cons, hn, hk]
  · show (s.seen ++ [k]).Nodup
    simp [List.nodup_append, h2, hns]

theorem addBasic_inv (s : SelState) (idx : Nat) (n : String)
    (hinv : MpfScrape.SeenInv s) (hn : MpfScrape.isReturnName n = false) :
    MpfScrape.SeenInv { s with keep := s.keep ++ [idx], names := s.names ++ [n] } := by
  obtain ⟨h1, h2⟩ := hinv
  refine ⟨?_, h2⟩
  show ((s.names ++ [n]).filter _).map _ = s.seen
  rw [List.filter_append]
  simp [List.filter_cons, hn, h1]

theorem basicNameEn_not_return (l1 n : String)
    (h : MpfScrape.basicNameEn l1 = some n) : MpfScrape.isReturnName n = false := by
  rw [MpfScrape.basicNameEn] at h
  split_ifs at h <;> (simp only [Option.some.injEq] at h; subst h; decide)

theorem stepEnReturn_inv (s : SelState) (idx : Nat) (l2 : String)
    (hinv : MpfScrape.SeenInv s) :
    MpfScrape.SeenInv (MpfScrape.stepEnReturn s idx l2) := by
  rw [MpfScrape.stepEnReturn]
  split_ifs <;>
    first
    | exact hinv
    | (apply addCol_inv s idx _ _ hinv (by decide) (by decide); simp_all)

theorem stepEn_inv (s : SelState) (idx : Nat) (c : String × String × String)
    (hinv : MpfScrape.SeenInv s) : MpfScrape.SeenInv (MpfScrape.stepEn s idx c) := by
  simp only [MpfScrape.stepEn]
  by_cases hu : (hasSeg "Unnamed" (pyStrip c.1) && hasSeg "Unnamed" (pyStrip c.2.1) &&
      hasSeg "Unnamed" (pyStrip c.2.2)) = true
  · rw [if_pos hu]
    exact hinv
  · rw [if_neg hu]
    rcases hb : MpfScrape.basicNameEn (pyStrip c.2.1) with _ | n
    · exact stepEnReturn_inv s idx _ hinv
    · exact addBasic_inv s idx n hinv (basicNameEn_not_return _ n hb)

theorem selEnAux_inv : ∀ (cs : List (String × String × String)) (idx : Nat)
    (s : SelState), MpfScrape.SeenInv s → MpfScrape.SeenInv (MpfScrape.selEnAux idx cs s) := by
  intro cs
  induction cs with
  | nil => intro idx s h; exact h
  | cons c t ih =>
    intro idx s h
    exact ih (idx + 1) _ (stepEn_inv s idx c h)

/-- C8 counterexample: two raw columns duplicated by header spanning whose
`level_1` both read "Scheme" — one distinguishable semantic role — are both
kept by `parse_main_table`'s reconciliation, because the
first-unseen-role-wins policy applies only to return-related columns. -/
theorem C8_counterexample :
    (MpfScrape.selectColumns
      [("Fund Info", "Scheme", "A"), ("Fund Info", "Scheme", "B")]).names =
      ["Scheme", "Scheme"] ∧
    ¬ (MpfScrape.selectColumns
      [("Fund Info", "Scheme", "A"), ("Fund Info", "Scheme", "B")]).names.Nodup :=
  ⟨rfl, by decide⟩

/-- C8 amended: for return-related columns the first-unseen-role-wins
policy keeps at most one column per semantic role over any input (the kept
return-column names never repeat), preserving first-occurrence order; in
particular a spanned group of four "1 Year" columns yields exactly the
four roles in first-occurrence order.  Spanned duplicates of basic-info
columns are, however, kept once per raw column. -/
theorem C8_amended :
    (∀ cols, ((MpfScrape.selectColumns cols).names.filter
        MpfScrape.isReturnName).Nodup) ∧
    (MpfScrape.selectColumns
      [("Fund Performance", "Return", "1 Year"),
       ("Fund Performance", "Return", "1 Year.1"),
       ("Fund Performance", "Return", "1 Year.2"),
       ("Fund Performance", "Return", "1 Year.3")]).names =
      ["Annualized Return (% p.a.) - 1 Year", "Cumulative Return (%) - 1 Year",
       "Calendar Year Return (%) - 2024", "Calendar Year Return (%) - 2023"] := by
  constructor
  · intro cols
    have hinv : MpfScrape.SeenInv (MpfScrape.selectColumns cols) :=
      selEnAux_inv cols 0 ⟨[], [], []⟩ ⟨rfl, List.nodup_nil⟩
    have hmap := hinv.1.symm ▸ hinv.2
    exact List.Nodup.of_map _ hmap
  · rfl

theorem segStarts_append (n l t : List Char) (h : segStarts n l = true) :
    segStarts n (l ++ t) = true := by
  induction n generalizing l with
  | nil => rfl
  | cons a as ih =>
    cases l with
    | nil => simp [segStarts] at h
    | cons b bs =>
      simp only [List.cons_append, segStarts, Bool.and_eq_true] at h ⊢
      exact ⟨h.1, ih bs h.2⟩

theorem hasSegList_nil_true (t : List Char) : hasSegList [] t = true := by
  cases t with
  | nil => rfl
  | cons b bs => simp [hasSegList, segStarts]

theorem hasSegList_append (n l t : List Char) (h : hasSegList n l = true) :
    hasSegList n (l ++ t) = true := by
  induction l with
  | nil =>
    cases n with
    | nil => exact hasSegList_nil_true t
    | cons a as => simp [hasSegList, segStarts] at h
  | cons b bs ih =>
    simp only [hasSegList, Bool.or_eq_true, List.cons_append] at h ⊢
    rcases h with h | h
    · exact .inl (segStarts_append n (b :: bs) t h)
    · exact .inr (ih h)

theorem isCYName_cy (y : String) :
    isCYName ("Calendar Year Return (%)\n-  " ++ y) = true := by
  rw [isCYName, hasSeg]
  show hasSegList _ ("Calendar Year Return (%)\n-  " ++ y).data = true
  rw [String.data_append]
  exact hasSegList_append _ _ _ (by decide)

theorem basicNameJson_not_cy (l1 n : String)
    (h : basicNameJson l1 = some n) : isCYName n = false := by
  rw [basicNameJson] at h
  split_ifs at h <;> (simp only [Option.some.injEq] at h; subst h; decide)

theorem stepJson_keep (s : SelState) (idx j : Nat) (c : String × String × String)
    (h : j ∈ (stepJson s idx c).keep) :
    j ∈ s.keep ∨ (j = idx ∧ recognizedJson c = true) := by
  simp only [stepJson] at h
  by_cases hu : (hasSeg "Unnamed" (pyStrip c.1) && hasSeg "Unnamed" (pyStrip c.2.1) &&
      hasSeg "Unnamed" (pyStrip c.2.2)) = true
  · rw [if_pos hu] at h
    exact .inl h
  · rw [if_neg hu] at h
    have hrec : (basicNameJson (pyStrip c.2.1)).isSome = true ∨
        hasAnyYear (pyStrip c.1) = true → recognizedJson c = true := by
      intro hd
      rw [recognizedJson, if_neg hu]
      rcases hd with hd | hd <;> simp [hd]
    rcases hb : basicNameJson (pyStrip c.2.1) with _ | n
    · rw [hb] at h
      simp only at h
      by_cases hy : hasAnyYear (pyStrip c.1) = true
      · rw [if_pos hy] at h
        rcases hf : findYear (pyStrip c.1).toList with _ | y
        · rw [hf] at h
          exact .inl h
        · rw [hf] at h
          simp only at h
          by_cases hseen : ("CY_" ++ y) ∈ s.seen
          · rw [if_pos hseen] at h
            exact .inl h
          · rw [if_neg hseen] at h
            rcases List.mem_append.1 h with hm | hm
            · exact .inl hm
            · exact .inr ⟨by simpa using hm, hrec (.inr hy)⟩
      · rw [if_neg hy] at h
        exact .inl h
    · rw [hb] at h
      simp only at h
      rcases List.mem_append.1 h with hm | hm
      · exact .inl hm
      · exact .inr ⟨by simpa using hm, hrec (.inl (by simp [hb]))⟩

theorem selJsonAux_keep_sound : ∀ (cs : List (String × String × String))
    (idx : Nat) (s : SelState) (j : Nat), j ∈ (selJsonAux idx cs s).keep →
    j ∈ s.keep ∨ ∃ k, ∃ hk : k < cs.length, idx + k = j ∧
      recognizedJson (cs.get ⟨k, hk⟩) = true := by
  intro cs
  induction cs with
  | nil => intro idx s j h; exact .inl h
  | cons c t ih =>
    intro idx s j h
    rcases ih (idx + 1) (stepJson s idx c) j h with h1 | ⟨k, hk, hkj, hrec⟩
    · rcases stepJson_keep s idx j c h1 with h2 | ⟨rfl, hrec⟩
      · exact .inl h2
      · exact .inr ⟨0, by simp, by simp, by simpa using hrec⟩
    · exact .inr ⟨k + 1, by simpa using Nat.succ_lt_succ hk, by omega, by simpa using hrec⟩

theorem stepJson_cy_inv (s : SelState) (idx : Nat) (c : String × String × String)
    (h1 : ∀ y, ("Calendar Year Return (%)\n-  " ++ y) ∈ s.names → ("CY_" ++ y) ∈ s.seen)
    (h2 : (s.names.filter isCYName).Nodup) :
    (∀ y, ("Calendar Year Return (%)\n-  " ++ y) ∈ (stepJson s idx c).names →
        ("CY_" ++ y) ∈ (stepJson s idx c).seen) ∧
    ((stepJson s idx c).names.filter isCYName).Nodup := by
  simp only [stepJson]
  by_cases hu : (hasSeg "Unnamed" (pyStrip c.1) && hasSeg "Unnamed" (pyStrip c.2.1) &&
      hasSeg "Unnamed" (pyStrip c.2.2)) = true
  · rw [if_pos hu]
    exact ⟨h1, h2⟩
  · rw [if_neg hu]
    rcases hb : basicNameJson (pyStrip c.2.1) with _ | n
    · simp only []
      by_cases hy : hasAnyYear (pyStrip c.1) = true
      · rw [if_pos hy]
        rcases hf : findYear (pyStrip c.1).toList with _ | y0
        · exact ⟨h1, h2⟩
        · simp only []
          by_cases hseen : ("CY_" ++ y0) ∈ s.seen
          · rw [if_pos hseen]
            exact ⟨h1, h2⟩
          · rw [if_neg hseen]
            have hnm : ("Calendar Year Return (%)\n-  " ++ y0) ∉ s.names :=
              fun hmem => hseen (h1 y0 hmem)
            constructor
            · intro y hy'
              rcases List.mem_append.1 hy' with hm | hm
              · exact List.mem_append_left _ (h1 y hm)
              · have heq : ("Calendar Year Return (%)\n-  " ++ y) =
                    ("Calendar Year Return (%)\n-  " ++ y0) := by simpa using hm
                have hy0 : y = y0 := by
                  have hd := congrArg String.data heq
                  rw [String.data_append, String.data_append] at hd
                  exact String.ext (List.append_cancel_left hd)
                subst hy0
                exact List.mem_append_right _ (by simp)
            · rw [List.filter_append]
              have hfil : List.filter isCYName
                  [("Calendar Year Return (%)\n-  " ++ y0)] =
                  [("Calendar Year Return (%)\n-  " ++ y0)] := by
                simp [List.filter_cons, isCYName_cy]
              rw [hfil, List.nodup_append]
              refine ⟨h2, List.nodup_singleton _, ?_⟩
              intro a ha hb'
              have : a = ("Calendar Year Return (%)\n-  " ++ y0) := by simpa using hb'
              subst this
              exact hnm (List.mem_of_mem_filter ha)
      · rw [if_neg hy]
        exact ⟨h1, h2⟩
    · simp only []
      constructor
      · intro y hy'
        rcases List.mem_append.1 hy' with hm | hm
        · exact h1 y hm
        · have heq : ("Calendar Year Return (%)\n-  " ++ y) = n := by simpa using hm
          have hcy := isCYName_cy y
          rw [heq, basicNameJson_not_cy _ n hb] at hcy
          simp at hcy
      · rw [List.filter_append]
        have hfil : List.filter isCYName [n] = [] := by
          simp [List.filter_cons, basicNameJson_not_cy _ n hb]
        rw [hfil, List.append_nil]
        exact h2

theorem selJsonAux_cy_inv : ∀ (cs : List (String × String × String)) (idx : Nat)
    (s : SelState),
    (∀ y, ("Calendar Year Return (%)\n-  " ++ y) ∈ s.names → ("CY_" ++ y) ∈ s.seen) →
    (s.names.filter isCYName).Nodup →
    ((selJsonAux idx cs s).names.filter isCYName).Nodup := by
  intro cs
  induction cs with
  | nil => intro idx s _ h2; exact h2
  | cons c t ih =>
    intro idx s h1 h2
    obtain ⟨g1, g2⟩ := stepJson_cy_inv s idx c h1 h2
    exact ih (idx + 1) _ g1 g2

/-- C10: calendar-year recognition in `mpf_scrape_json.parse_main_table`
accepts only the five years 2020-2024 — a column matching no basic-field
rule whose outer level contains none of the substrings "2020".."2024" is
never kept (so an outer header carrying 2025 or 2019 never appears); the
kept calendar-year column names never repeat, and in the concrete
three-column example the 2025 column is dropped while only the first of
two 2024 columns is kept. -/
theorem C10_calendar_year_rules :
    (∀ cols j (hj : j < cols.length),
        basicNameJson (pyStrip (cols.get ⟨j, hj⟩).2.1) = none →
        hasAnyYear (pyStrip (cols.get ⟨j, hj⟩).1) = false →
        j ∉ (selectColumnsJson cols).keep) ∧
    (∀ cols, ((selectColumnsJson cols).names.filter isCYName).Nodup) ∧
    selectColumnsJson
      [("Calendar Year 2025", "x", "y"), ("Return  2024", "u", "v"),
       ("Return  2024", "u", "v")] =
      ⟨[1], ["Calendar Year Return (%)\n-  2024"], ["CY_2024"]⟩ := by
  refine ⟨?_, ?_, rfl⟩
  · intro cols j hj hb hy hmem
    rcases selJsonAux_keep_sound cols 0 ⟨[], [], []⟩ j hmem with h | ⟨k, hk, hkj, hrec⟩
    · simp at h
    · have hkj' : k = j := by omega
      subst hkj'
      have hget : cols.get ⟨k, hk⟩ = cols.get ⟨k, hj⟩ := rfl
      rw [hget, recognizedJson] at hrec
      by_cases hu : (hasSeg "Unnamed" (pyStrip (cols.get ⟨k, hj⟩).1) &&
          hasSeg "Unnamed" (pyStrip (cols.get ⟨k, hj⟩).2.1) &&
          hasSeg "Unnamed" (pyStrip (cols.get ⟨k, hj⟩).2.2)) = true
      · rw [if_pos hu] at hrec
        simp at hrec
      · rw [if_neg hu] at hrec
        rw [hb, hy] at hrec
        simp at hrec
  · intro cols
    exact selJsonAux_cy_inv cols 0 ⟨[], [], []⟩ (by intro y h; simp at h) (by simp)

/-- Witness for C10: the 2025 column of the concrete example is dropped. -/
theorem C10_witness :
    0 ∉ (selectColumnsJson
      [("Calendar Year 2025", "x", "y"), ("Return  2024", "u", "v"),
       ("Return  2024", "u", "v")]).keep :=
  C10_calendar_year_rules.1 _ 0 (by decide) (by decide) (by decide)

/-- Witness for C5: the key-membership characterization at a concrete
record and key. -/
theorem C5_witness :
    (∃ v, ("Scheme", v) ∈ clean_record
        [("Scheme", Value.str "A"), ("Details", Value.nan)]) ↔
      ∃ v, ("Scheme", v) ∈ [("Scheme", Value.str "A"), ("Details", Value.nan)] ∧
        v ≠ Value.nan :=
  C5_missing_values_stripped.1 _ "Scheme"

/-- Witness for C6: a pre-existing string Fund Size value is unchanged. -/
theorem C6_witness : formatFundSize (.str "123.45") = .str "123.45" :=
  C6_fund_size_formatting.1 "123.45"

/-- Witness for C7: a pre-existing string return value is unchanged. -/
theorem C7_witness : formatCYReturn (.str "5.0") = .str "5.0" :=
  C7_cyr_formatting.1 "5.0"

/-- Witness for C8: the kept return names of a spanned four-column
"10 Year" group never repeat. -/
theorem C8_witness :
    ((MpfScrape.selectColumns
      [("R", "X", "10 Year"), ("R", "X", "10 Year"),
       ("R", "X", "10 Year"), ("R", "X", "10 Year")]).names.filter
      MpfScrape.isReturnName).Nodup :=
  C8_amended.1 _

/-- Witness for C9: idempotence evaluated at a one-record dataset. -/
theorem C9_witness :
    format_dataframe_for_json (format_dataframe_for_json
      [[("Fund size (HKD\x27 m)", Value.num ⟨false, [4, 5, 6], [7, 8]⟩)]]) =
      format_dataframe_for_json
        [[("Fund size (HKD\x27 m)", Value.num ⟨false, [4, 5, 6], [7, 8]⟩)]] :=
  C9_formatter_idempotent _

end MPF
